import Mathlib

/-!
Verification of the virtual-tree model of `vtree` (`src/tree/tree_item.rs`,
`src/tree/core.rs`) against its natural-language specification.

The Rust code is shallowly embedded:
* `TreeItem` / `TreeModel` / `PathVector` become Lean inductives and
  structures; `Vec<String>` path vectors become `List String`.
* Filesystem probes (`Path::is_file`, `Path::exists`) are parametrized by an
  explicit filesystem model `FS`; the disk is re-probed on each call simply by
  passing the current `FS` value.
* Functions returning `Result<T, TreeError>` become `Res T`; a Rust `panic`
  (an `unwrap()` of `None`, or a failing `assert!`) is the extra outcome
  `Res.panic`, since it is an abrupt termination distinct from a returned
  error value.
* Rust string manipulation is embedded over `List Char` with structural
  recursion so that every definition evaluates inside the kernel.
-/

namespace VTree

/-! ## Filesystem model

`files` are the paths that currently exist as regular files (probed by
`Path::is_file`); `dirs` are paths that exist on disk but are not regular
files.  `contents` models `std::fs::read_to_string`, `cwd` models
`std::env::current_dir`. -/

structure FS where
  files : List String
  dirs : List String
  contents : String → Option String
  cwd : String

/-- `Path::is_file` probe. -/
def FS.isFile (fs : FS) (p : String) : Bool := fs.files.contains p

/-- `Path::exists` probe. -/
def FS.pathExists (fs : FS) (p : String) : Bool :=
  fs.files.contains p || fs.dirs.contains p

/-- Effect of `std::fs::File::create` on the filesystem model: the path now
exists as an empty regular file. -/
def FS.createFile (fs : FS) (p : String) : FS :=
  { fs with
    files := p :: fs.files
    contents := fun q => if q = p then some "" else fs.contents q }

/-! ## Errors and outcomes

The Rust `TreeError` is a bare message string; each constructor below
corresponds to one distinct `format!` call site in the source, keeping the
data that the message interpolates. -/

inductive TreeError where
  /-- "No such file or directory: {name}" -/
  | noSuchFile (name : String)
  /-- "There are only {count} items with name {name}" -/
  | ambiguous (count : Int) (name : String)
  /-- "No directory named {name} under {parent}" -/
  | noDirNamed (name : String) (parent : String)
  /-- "Directory {name} already exists." -/
  | dirAlreadyExists (name : String)
  /-- "Name {name} is not a valid directory name. ..." -/
  | invalidItemName (name : String)
  /-- "{path} already exists." -/
  | alreadyExists (path : String)
  /-- "Cannot remove root" -/
  | cannotRemoveRoot
  /-- "Path could not be resolved" -/
  | pathNotResolved
  /-- "{path} is not a file." -/
  | notAFile (path : String)
  /-- "{path} does not exist." -/
  | doesNotExist (path : String)
  /-- "No entity found" / "No entity" -/
  | noEntity
  /-- An error propagated from file I/O, carrying the OS message. -/
  | ioError (msg : String)
  deriving DecidableEq

/-- Outcome of calling one of the Rust functions: a returned value, a
returned `TreeError`, or a panic (abrupt termination). -/
inductive Res (α : Type) where
  | ok (val : α)
  | err (e : TreeError)
  | panic
  deriving DecidableEq

def Res.bind {α β : Type} : Res α → (α → Res β) → Res β
  | .ok a, f => f a
  | .err e, _ => .err e
  | .panic, _ => .panic

def Res.map {α β : Type} (f : α → β) : Res α → Res β
  | .ok a => .ok (f a)
  | .err e => .err e
  | .panic => .panic

instance : Monad Res where
  pure := Res.ok
  bind := Res.bind
  map := Res.map

/-- True exactly for `Res.ok`. -/
def Res.isOk {α : Type} : Res α → Bool
  | .ok _ => true
  | _ => false

/-! ## Character-level string utilities (structural, kernel-evaluable) -/

/-- `str::split(sep)` for a one-character separator. -/
def splitOnChar (sep : Char) : List Char → List (List Char)
  | [] => [[]]
  | c :: rest =>
    match splitOnChar sep rest with
    | [] => [[c]]
    | g :: gs => if c = sep then [] :: g :: gs else (c :: g) :: gs

/-- `str::replace("\\", "/")`: for a one-character pattern this is a
character map. -/
def backslashToSlash (cs : List Char) : List Char :=
  cs.map fun c => if c = '\\' then '/' else c

/-- Split a string on `/` after normalizing `\` to `/`, one `String` per
run, exactly like `path.replace("\\", "/").split("/")`. -/
def splitPathString (s : String) : List String :=
  (splitOnChar '/' (backslashToSlash s.data)).map String.mk

/-- `s.join(sep)` on a list of strings. -/
def joinSep (sep : String) : List String → String
  | [] => ""
  | [s] => s
  | s :: rest => s ++ sep ++ joinSep sep rest

/-- Digit run to number, for `i32::from_str`. -/
def digitsToNat (ds : List Char) : Nat :=
  ds.foldl (fun a c => a * 10 + (c.toNat - 48)) 0

/-- `right.parse::<i32>()`: optional single `+`/`-` sign, then one or more
ASCII digits, value within the `i32` range; anything else is a parse
failure. -/
def parseI32Core (sign : Int) (ds : List Char) : Option Int :=
  if ds.isEmpty then none
  else if ds.all Char.isDigit then
    let v : Int := sign * (digitsToNat ds : Nat)
    if -2147483648 ≤ v ∧ v ≤ 2147483647 then some v else none
  else none

def parseI32 (cs : List Char) : Option Int :=
  match cs with
  | '+' :: rest => parseI32Core 1 rest
  | '-' :: rest => parseI32Core (-1) rest
  | _ => parseI32Core 1 cs

/-- Split at the last `#`, like `name.rsplitn(2, '#')`: returns
`some (left, right)` when a `#` occurs, `none` otherwise. -/
def lastHashSplit : List Char → Option (List Char × List Char)
  | [] => none
  | c :: cs =>
    match lastHashSplit cs with
    | some (l, r) => some (c :: l, r)
    | none => if c = '#' then some ([], cs) else none

/-- `split_nth_item` (tree_item.rs): the text after the last `#` (the whole
name when no `#` occurs, with empty left part) is parsed as an `i32`; on
success the pair `(left, n)` is returned, on failure `(name, -1)`. -/
def splitNthItem (name : String) : String × Int :=
  match lastHashSplit name.data with
  | some (l, r) =>
    match parseI32 r with
    | some n => (String.mk l, n)
    | none => (name, -1)
  | none =>
    match parseI32 name.data with
    | some n => ("", n)
    | none => (name, -1)

/-- `_INVALID` character set of `is_valid_item_name`. -/
def invalidChars : List Char := ['\\', '/', '#', '|', '"', '*', '?', '<', '>', ':']

/-- `is_valid_item_name` (tree_item.rs). -/
def isValidItemName (name : String) : Bool :=
  name.data.all fun c => !invalidChars.contains c

/-! ## `TreeItem` (tree_item.rs)

`entity: Option<PathBuf>` is embedded as `Option String` (paths are UTF-8
strings throughout the claims). -/

inductive TreeItem : Type where
  | node (name : String) (children : List TreeItem) (desc : Option String)
      (entity : Option String) : TreeItem

namespace TreeItem

def name : TreeItem → String
  | .node n _ _ _ => n

def children : TreeItem → List TreeItem
  | .node _ cs _ _ => cs

def desc : TreeItem → Option String
  | .node _ _ d _ => d

def entity : TreeItem → Option String
  | .node _ _ _ e => e

/-- Replace the children list (the effect of mutating `self.children`). -/
def withChildren : TreeItem → List TreeItem → TreeItem
  | .node n _ d e, cs => .node n cs d e

/-- `TreeItem::new`. -/
def new (name : String) : TreeItem := .node name [] none none

/-- `TreeItem::new_file`. -/
def newFile (name : String) (path : String) : TreeItem :=
  .node name [] none (some path)

/-- `TreeItem::is_file`: false whenever the item has children; otherwise
true exactly when the entity is present and its path is currently a regular
file on disk. -/
def is_file (fs : FS) (t : TreeItem) : Bool :=
  if t.children.length > 0 then false
  else
    match t.entity with
    | some path => fs.isFile path
    | none => false

/-- `TreeItem::is_dir`. -/
def is_dir (fs : FS) (t : TreeItem) : Bool := !t.is_file fs

/-- `TreeItem::has`: exact-name membership test, no `#n` parsing. -/
def has (t : TreeItem) (name : String) : Bool :=
  t.children.any fun c => c.name == name

/-- `TreeItem::has_dir`. -/
def has_dir (fs : FS) (t : TreeItem) (name : String) : Bool :=
  t.children.any fun c => c.name == name && c.is_dir fs

/-- The `nth < 0` loop of `get_child`: first exact match wins; the final
`NotFound` error carries the split base name. -/
def getChildFirst (nm : String) : List TreeItem → Res TreeItem
  | [] => .err (.noSuchFile nm)
  | c :: rest => if c.name == nm then .ok c else getChildFirst nm rest

/-- The `nth >= 0` loop of `get_child`: `count` counts matches seen so far;
after the loop, `count > 0` yields the ambiguity error with the total number
of matches, otherwise `NotFound`. -/
def getChildNth (nm : String) (nth : Int) : List TreeItem → Int → Res TreeItem
  | [], count =>
    if count > 0 then .err (.ambiguous count nm) else .err (.noSuchFile nm)
  | c :: rest, count =>
    if c.name == nm then
      if count == nth then .ok c else getChildNth nm nth rest (count + 1)
    else getChildNth nm nth rest count

/-- `TreeItem::get_child` (and `get_child_mut`, which has identical
selection logic). -/
def get_child (t : TreeItem) (name : String) : Res TreeItem :=
  let pr := splitNthItem name
  if pr.2 < 0 then getChildFirst pr.1 t.children
  else getChildNth pr.1 pr.2 t.children 0

/-- Loop of `get_child_dir`: first child matching the (unsplit) name that
also satisfies `is_dir`. -/
def getChildDirLoop (fs : FS) (nm : String) (parent : String) :
    List TreeItem → Res TreeItem
  | [] => .err (.noDirNamed nm parent)
  | c :: rest =>
    if c.name == nm && c.is_dir fs then .ok c
    else getChildDirLoop fs nm parent rest

/-- `TreeItem::get_child_dir` (and `get_child_dir_mut`). -/
def get_child_dir (fs : FS) (t : TreeItem) (name : String) : Res TreeItem :=
  getChildDirLoop fs name t.name t.children

/-- `TreeItem::add_item` pushes a child; `core.rs` invokes it with a
`(name, path)` pair matching `add_new_child`'s signature, which builds
`TreeItem::new_file(name, path)` and pushes it. -/
def add_new_child (t : TreeItem) (name : String) (path : String) : Res TreeItem :=
  .ok (t.withChildren (t.children ++ [newFile name path]))

/-- `TreeItem::make_directory`: rejects an existing *directory* child with
the same name, then validates the name, then pushes an empty child. -/
def make_directory (fs : FS) (t : TreeItem) (name : String) : Res TreeItem :=
  if t.has_dir fs name then .err (.dirAlreadyExists name)
  else if !isValidItemName name then .err (.invalidItemName name)
  else .ok (t.withChildren (t.children ++ [new name]))

/-- Loop of `TreeItem::remove_child`: removes the first exact-name match. -/
def removeChildLoop (nm : String) : List TreeItem → Res (List TreeItem)
  | [] => .err (.noSuchFile nm)
  | c :: rest =>
    if c.name == nm then .ok rest
    else (removeChildLoop nm rest).map (c :: ·)

/-- `TreeItem::remove_child`. -/
def remove_child (t : TreeItem) (name : String) : Res TreeItem :=
  (removeChildLoop name t.children).map t.withChildren

/-- `TreeItem::entity_path` (entity paths are UTF-8 here, so `to_str`
always succeeds). -/
def entity_path (t : TreeItem) : Option String := t.entity

/-! Mutable-reference returning functions (`get_child_mut`,
`get_child_dir_mut`) are embedded as in-place modification: locate the child
with the same selection logic and rebuild the list around the updated
child. -/

/-- `get_child_mut`, `nth < 0` branch, as modification. -/
def modChildFirst (nm : String) (f : TreeItem → Res TreeItem) :
    List TreeItem → Res (List TreeItem)
  | [] => .err (.noSuchFile nm)
  | c :: rest =>
    if c.name == nm then (f c).map (· :: rest)
    else (modChildFirst nm f rest).map (c :: ·)

/-- `get_child_mut`, `nth >= 0` branch, as modification. -/
def modChildNth (nm : String) (nth : Int) (f : TreeItem → Res TreeItem) :
    List TreeItem → Int → Res (List TreeItem)
  | [], count =>
    if count > 0 then .err (.ambiguous count nm) else .err (.noSuchFile nm)
  | c :: rest, count =>
    if c.name == nm then
      if count == nth then (f c).map (· :: rest)
      else (modChildNth nm nth f rest (count + 1)).map (c :: ·)
    else (modChildNth nm nth f rest count).map (c :: ·)

/-- Apply `f` at the child `get_child_mut(name)` would return. -/
def modify_child (t : TreeItem) (name : String) (f : TreeItem → Res TreeItem) :
    Res TreeItem :=
  let pr := splitNthItem name
  (if pr.2 < 0 then modChildFirst pr.1 f t.children
   else modChildNth pr.1 pr.2 f t.children 0).map t.withChildren

/-- `get_child_dir_mut` as modification. -/
def modChildDir (fs : FS) (nm : String) (parent : String)
    (f : TreeItem → Res TreeItem) : List TreeItem → Res (List TreeItem)
  | [] => .err (.noDirNamed nm parent)
  | c :: rest =>
    if c.name == nm && c.is_dir fs then (f c).map (· :: rest)
    else (modChildDir fs nm parent f rest).map (c :: ·)

/-- Apply `f` at the child `get_child_dir_mut(name)` would return. -/
def modify_child_dir (fs : FS) (t : TreeItem) (name : String)
    (f : TreeItem → Res TreeItem) : Res TreeItem :=
  (modChildDir fs name t.name f t.children).map t.withChildren

/-- Walk a segment list via `get_child_mut` and apply `f` at the end. -/
def modify_at (t : TreeItem) (segs : List String)
    (f : TreeItem → Res TreeItem) : Res TreeItem :=
  match segs with
  | [] => f t
  | s :: rest => t.modify_child s (fun c => c.modify_at rest f)

/-- Walk a segment list via `get_child_dir_mut` and apply `f` at the end. -/
def modify_at_dir (fs : FS) (t : TreeItem) (segs : List String)
    (f : TreeItem → Res TreeItem) : Res TreeItem :=
  match segs with
  | [] => f t
  | s :: rest => t.modify_child_dir fs s (fun c => c.modify_at_dir fs rest f)

end TreeItem

/-! ## `std::path` component helpers

The source manipulates backing paths through `Path::file_name`,
`file_stem`, `extension`, `parent` and `join`.  These are modelled on
`/`-separated path strings; the degenerate cases the tree code never
reaches (trailing separators, bare roots) follow the same component rules. -/

/-- Raw `/`-split of a path string (no backslash normalization: `std::path`
on Unix only treats `/` as a separator). -/
def pathParts (p : String) : List String :=
  (splitOnChar '/' p.data).map String.mk

/-- `Path::file_name`: the last normal component; `none` when the path ends
in `..` or has no normal component. -/
def fileNameOf (p : String) : Option String :=
  let comps := (pathParts p).filter fun s => s != "" && s != "."
  match comps.getLast? with
  | some last => if last = ".." then none else some last
  | none => none

/-- Split a character list at its last `.`, when one occurs. -/
def lastDotSplit : List Char → Option (List Char × List Char)
  | [] => none
  | c :: cs =>
    match lastDotSplit cs with
    | some (l, r) => some (c :: l, r)
    | none => if c = '.' then some ([], cs) else none

/-- `Path::file_stem` and `Path::extension` on a file name: the portions
before and after the final `.`; a name with no `.`, or whose only `.` is
leading, is all stem with no extension. -/
def fileStemExt (fname : String) : String × Option String :=
  match lastDotSplit fname.data with
  | none => (fname, none)
  | some (l, r) =>
    if l.isEmpty then (fname, none) else (String.mk l, some (String.mk r))

/-- `Path::parent`: the path without its last component. -/
def parentOf (p : String) : Option String :=
  if p = "" ∨ p = "/" then none
  else
    match (pathParts p).dropLast with
    | [] => some ""
    | [""] => some "/"
    | ps => some (joinSep "/" ps)

/-- True when the string starts with the given character. -/
def startsWithChar (c : Char) (s : String) : Bool :=
  match s.data with
  | x :: _ => x = c
  | [] => false

/-- `str::strip_prefix` for a one-character pattern. -/
def stripLead (c : Char) (s : String) : Option String :=
  match s.data with
  | x :: rest => if x = c then some (String.mk rest) else none
  | [] => none

/-- `Path::join`: an absolute right operand replaces the left. -/
def joinPath (d : String) (f : String) : String :=
  if startsWithChar '/' f then f
  else if d = "" then f
  else d ++ "/" ++ f

/-- `resolve_path` (core.rs): a stored path starting with `.` or `/` is
resolved against the current working directory after stripping a leading `.`
and `/` (each falling back to the original string on failure, as in the
source); any other path is used as-is. -/
def resolve_path (cwd : String) (path : String) : String :=
  if startsWithChar '.' path || startsWithChar '/' path then
    let s1 := (stripLead '.' path).getD path
    let s2 := (stripLead '/' s1).getD path
    joinPath cwd s2
  else path

/-! ## `PathVector` (core.rs) -/

/-- `PathVector::pops`: remove up to `n` trailing segments, clamping at the
empty vector. -/
def pops (p : List String) (n : Nat) : List String :=
  p.take (p.length - n)

/-! ## `TreeModel` (core.rs) -/

structure TreeModel where
  root : TreeItem
  path : List String

namespace TreeModel

/-- `TreeModel::new`: wrap an item, current position at the root. -/
def new (item : TreeItem) : TreeModel := ⟨item, []⟩

/-- `TreeModel::resolve_virtual_path`: start from the empty base when the
string begins with `~`, else from the current path; normalize `\` to `/`,
split on `/`, drop empty, `.` and `~` segments; `..` pops, anything else
pushes.  Always returns `Ok`. -/
def resolve_virtual_path (m : TreeModel) (path : String) : Res (List String) :=
  let base := if startsWithChar '~' path then [] else m.path
  let pathvec := (splitPathString path).filter fun s => s != "" && s != "." && s != "~"
  .ok (pathvec.foldl (fun cur p => if p == ".." then cur.dropLast else cur ++ [p]) base)

/-- `TreeModel::solve_path_vec`: like the walking phase of
`resolve_virtual_path` but over an already-split vector, rooted when the
first segment is literally `~`. -/
def solve_path_vec (m : TreeModel) (pathvec : List String) : List String :=
  let cpath := if pathvec.head? = some "~" then [] else m.path
  pathvec.foldl (fun cp p => if p == ".." then pops cp 1 else cp ++ [p]) cpath

/-- Walk of `check_path_exists`: `get_child` per segment from the given
item, `false` at the first failure. -/
def checkWalk (t : TreeItem) : List String → Bool
  | [] => true
  | s :: rest =>
    match t.get_child s with
    | .ok c => checkWalk c rest
    | _ => false

/-- `TreeModel::check_path_exists` (walks the raw vector from the root,
without `solve_path_vec`). -/
def check_path_exists (m : TreeModel) (pathvec : List String) : Bool :=
  checkWalk m.root pathvec

/-- Walk a segment list via `get_child`. -/
def walkGetChild (t : TreeItem) : List String → Res TreeItem
  | [] => .ok t
  | s :: rest => (t.get_child s).bind fun c => walkGetChild c rest

/-- Walk a segment list via `get_child_dir`. -/
def walkGetChildDir (fs : FS) (t : TreeItem) : List String → Res TreeItem
  | [] => .ok t
  | s :: rest => (t.get_child_dir fs s).bind fun c => walkGetChildDir fs c rest

/-- `TreeModel::current_item`: walk `self.path` from the root via
`get_child_dir`. -/
def current_item (fs : FS) (m : TreeModel) : Res TreeItem :=
  walkGetChildDir fs m.root m.path

/-- `TreeModel::item_at`: solve the vector against the current position,
then walk from the root via `get_child`. -/
def item_at (m : TreeModel) (pathvec : List String) : Res TreeItem :=
  walkGetChild m.root (m.solve_path_vec pathvec)

/-- `TreeModel::dir_item_at`: solve the vector, pop the last segment with
`pop().unwrap()` (a panic when the solved vector is empty), walk the rest
via `get_child_dir`, fetch the popped segment via `get_child_dir`, and
`assert!` the result is a directory. -/
def dir_item_at (fs : FS) (m : TreeModel) (pathvec : List String) : Res TreeItem :=
  let cpath := m.solve_path_vec pathvec
  match cpath.getLast? with
  | none => .panic
  | some last =>
    (walkGetChildDir fs m.root cpath.dropLast).bind fun item =>
    (item.get_child_dir fs last).bind fun item2 =>
    if item2.is_dir fs then .ok item2 else .panic

/-- `TreeModel::item_at_mut` as modification: apply `f` at the located
item. -/
def item_at_mut_apply (m : TreeModel) (pathvec : List String)
    (f : TreeItem → Res TreeItem) : Res TreeModel :=
  (m.root.modify_at (m.solve_path_vec pathvec) f).map fun r => { m with root := r }

/-- `TreeModel::dir_item_at_mut` as modification: same location logic as
`dir_item_at`, applying `f` at the located directory. -/
def dir_item_at_mut_apply (fs : FS) (m : TreeModel) (pathvec : List String)
    (f : TreeItem → Res TreeItem) : Res TreeModel :=
  let cpath := m.solve_path_vec pathvec
  match cpath.getLast? with
  | none => .panic
  | some last =>
    (m.root.modify_at_dir fs cpath.dropLast fun item =>
      item.modify_child_dir fs last fun item2 =>
        if item2.is_dir fs then f item2 else .panic).map fun r => { m with root := r }

/-- `TreeModel::current_item_mut` as modification. -/
def current_item_mut_apply (fs : FS) (m : TreeModel)
    (f : TreeItem → Res TreeItem) : Res TreeModel :=
  (m.root.modify_at_dir fs m.path f).map fun r => { m with root := r }

/-- `TreeModel::pwd`. -/
def pwd (m : TreeModel) : String := joinSep "/" m.path

/-- `TreeModel::move_forward`: extend the current path, validate the
extended vector via `dir_item_at`, and commit it only on success. -/
def move_forward (fs : FS) (m : TreeModel) (name : String) : Res TreeModel :=
  let path := m.path ++ [name]
  match m.dir_item_at fs path with
  | .ok _ => .ok { m with path := path }
  | .err e => .err e
  | .panic => .panic

/-- `TreeModel::move_backward`: unconditional clamped pop, never fails. -/
def move_backward (m : TreeModel) (level : Nat) : Res TreeModel :=
  .ok { m with path := pops m.path level }

/-- `TreeModel::move_to_home`. -/
def move_to_home (m : TreeModel) : TreeModel := { m with path := [] }

/-- Loop of `move_by_string`: raw `/`-split (no `\`, `.` or `~`
normalization), skipping empty segments, `move_backward(1)` for `..`,
`move_forward` otherwise. -/
def moveByLoop (fs : FS) (m : TreeModel) : List String → Res TreeModel
  | [] => .ok m
  | s :: rest =>
    if s == "" then moveByLoop fs m rest
    else if s == ".." then (m.move_backward 1).bind fun m2 => moveByLoop fs m2 rest
    else (move_forward fs m s).bind fun m2 => moveByLoop fs m2 rest

/-- `TreeModel::move_by_string`. -/
def move_by_string (fs : FS) (m : TreeModel) (path : String) : Res TreeModel :=
  moveByLoop fs m ((splitOnChar '/' path.data).map String.mk)

/-- `TreeModel::get_item`. -/
def get_item (m : TreeModel) (path : String) : Res TreeItem :=
  (m.resolve_virtual_path path).bind fun pv => m.item_at pv

/-- `TreeModel::ls_simple`: default argument `"."`, resolve, fetch via
`dir_item_at`, then `children_names()` (whose `assert!(is_dir)` is the
final guard) joined by single spaces. -/
def ls_simple (fs : FS) (m : TreeModel) (path : Option String) : Res String :=
  let p := match path with | some path => path | none => "."
  (m.resolve_virtual_path p).bind fun pathvec =>
  (m.dir_item_at fs pathvec).bind fun item =>
  if item.is_dir fs then .ok (joinSep " " (item.children.map TreeItem.name))
  else .panic

/-- Right-align to `width` with spaces, as `format!("{:>width$}")`. -/
def padLeft (width : Nat) (s : String) : String :=
  String.mk (List.replicate (width - s.length) ' ') ++ s

/-- `TreeModel::ls_detailed`: name/description pairs, names right-aligned
to the longest name, one pair per line. -/
def ls_detailed (fs : FS) (m : TreeModel) (path : Option String) : Res String :=
  let p := match path with | some path => path | none => "."
  (m.resolve_virtual_path p).bind fun pathvec =>
  (m.dir_item_at fs pathvec).bind fun item =>
  let names := item.children.map TreeItem.name
  let descs := item.children.map fun c =>
    match c.desc with
    | some d => d
    | none => "<no description>"
  let maxLen := names.foldl (fun mx n => Nat.max mx n.utf8ByteSize) 0
  .ok (joinSep "\n" ((names.zip descs).map fun pr => padLeft maxLen pr.1 ++ " " ++ pr.2))

/-- `TreeModel::make_directory`: resolve, pop the trailing name, locate the
parent via `dir_item_at_mut` falling back to the current item when that
errs, then `TreeItem::make_directory` there. -/
def make_directory (fs : FS) (m : TreeModel) (path : String) : Res TreeModel :=
  (m.resolve_virtual_path path).bind fun pathvec =>
  match pathvec.getLast? with
  | none => .err .pathNotResolved
  | some file_name =>
    let pv := pathvec.dropLast
    match m.dir_item_at fs pv with
    | .ok _ => m.dir_item_at_mut_apply fs pv fun item => item.make_directory fs file_name
    | .panic => .panic
    | .err _ => m.current_item_mut_apply fs fun item => item.make_directory fs file_name

/-- `TreeModel::remove_child`: resolve, pop the trailing name (an error,
not a panic, when the resolved vector is empty), locate the parent via
`dir_item_at_mut`, then `TreeItem::remove_child` there. -/
def remove_child (fs : FS) (m : TreeModel) (path : String) : Res TreeModel :=
  (m.resolve_virtual_path path).bind fun pathvec =>
  match pathvec.getLast? with
  | none => .err .cannotRemoveRoot
  | some file_name =>
    m.dir_item_at_mut_apply fs pathvec.dropLast fun item => item.remove_child file_name

/-- The unique-backing-name search loop of `create_new_file`: first the
candidate itself, then `stem-0.ext`, `stem-1.ext`, … in the candidate's
directory, until a path that does not exist on disk is found.  The loop is
embedded with fuel; fuel exhaustion (which a finite filesystem never
reaches, as the tried names are pairwise distinct) is mapped to the
non-returning outcome. -/
def findUniqueLoop (fs : FS) (stem : String) (ext : String) :
    String → Nat → Nat → Res String
  | _, _, 0 => .panic
  | path, count, fuel+1 =>
    if !fs.pathExists path then .ok path
    else
      let filename := stem ++ "-" ++ toString count ++ ext
      match parentOf path with
      | some parent => findUniqueLoop fs stem ext (joinPath parent filename) (count+1) fuel
      | none => .err (.alreadyExists path)

/-- `TreeModel::create_new_file`: fail with the already-exists error when
the resolved vector is already present in the tree; otherwise derive a
unique backing path, create an empty file there (always succeeds in the
filesystem model), and insert a new entity-bearing child under the resolved
parent.  Returns the updated tree and filesystem. -/
def create_new_file (fs : FS) (m : TreeModel) (path : String) (candidate : String) :
    Res (TreeModel × FS) :=
  (m.resolve_virtual_path path).bind fun pathvec =>
  if m.check_path_exists pathvec then .err (.alreadyExists path)
  else
    match pathvec.getLast? with
    | none => .panic
    | some filename =>
      let pv := pathvec.dropLast
      match fileNameOf candidate with
      | none => .panic
      | some fname =>
        let se := fileStemExt fname
        let ext := match se.2 with | some e => "." ++ e | none => ""
        (findUniqueLoop fs se.1 ext candidate 0 (fs.files.length + fs.dirs.length + 2)).bind
          fun vpath =>
            let fs2 := fs.createFile vpath
            (m.item_at_mut_apply pv fun item => item.add_new_child filename vpath).map
              fun m2 => (m2, fs2)

/-- `TreeModel::add_alias`: require the real path to exist on disk; the
target name and parent come from the explicit virtual path (its pop is an
`unwrap`, hence a panic on an empty resolved vector) or default to the real
file's base name under the current position; insert a new entity-bearing
child whose entity is the real path verbatim. -/
def add_alias (fs : FS) (m : TreeModel) (path : Option String) (filepath : String) :
    Res TreeModel :=
  if !fs.pathExists filepath then .err (.doesNotExist filepath)
  else
    (match path with
     | some p =>
       (m.resolve_virtual_path p).bind fun pathvec =>
       match pathvec.getLast? with
       | none => (.panic : Res (List String × String))
       | some filename => .ok (pathvec.dropLast, filename)
     | none =>
       match fileNameOf filepath with
       | none => (.panic : Res (List String × String))
       | some filename => .ok (m.path, filename)).bind fun pr =>
    m.item_at_mut_apply pr.1 fun item => item.add_new_child pr.2 filepath

/-- `TreeModel::read_file`: resolve and fetch via `item_at`, require
`is_file`, resolve the entity against the working directory, and read its
contents. -/
def read_file (fs : FS) (m : TreeModel) (path : String) : Res String :=
  (m.resolve_virtual_path path).bind fun pathvec =>
  (m.item_at pathvec).bind fun item =>
  if item.is_file fs then
    match item.entity with
    | some rpath =>
      let abs := resolve_path fs.cwd rpath
      match fs.contents abs with
      | some contents => .ok contents
      | none => .err (.ioError abs)
    | none => .panic
  else .err (.notAFile path)

/-- `TreeModel::entity_abspath`: resolve and fetch via `item_at`, then the
entity's absolute real path. -/
def entity_abspath (fs : FS) (m : TreeModel) (path : String) : Res String :=
  (m.resolve_virtual_path path).bind fun pathvec =>
  (m.item_at pathvec).bind fun item =>
  match item.entity_path with
  | some rpath => .ok (resolve_path fs.cwd rpath)
  | none => .err .noEntity

end TreeModel

/-! ## JSON (de)serialization (serde derive on `TreeItem`)

The schema (§6 of the spec) is
`{ "name": string, "children": [Node...], "desc": string|null, "entity": string|null }`.
`serde_json`'s text layer is modelled at the JSON-value level: `to_file`
writes the document value of the root in one piece, `from_file` parses a
document value.  The derived `Deserialize` visits object entries in order,
filling one slot per known field, rejecting duplicates and wrong types,
ignoring unknown fields, and requiring every field at the end. -/

mutual

inductive Json : Type where
  | null : Json
  | str (s : String) : Json
  | arr (xs : JsonList) : Json
  | obj (fields : JsonFields) : Json

inductive JsonList : Type where
  | nil : JsonList
  | cons (hd : Json) (tl : JsonList) : JsonList

inductive JsonFields : Type where
  | nil : JsonFields
  | cons (key : String) (val : Json) (tl : JsonFields) : JsonFields

end

/-- Serialization of `Option<String>` / `Option<PathBuf>` fields. -/
def optToJson : Option String → Json
  | some s => .str s
  | none => .null

/-- Deserialization of `Option<String>` / `Option<PathBuf>` fields. -/
def optFromJson : Json → Option (Option String)
  | .null => some none
  | .str s => some (some s)
  | _ => none

mutual

/-- Derived `Serialize` for `TreeItem`: an object with the four fields in
declaration order. -/
def TreeItem.toJson : TreeItem → Json
  | .node n cs d e =>
    .obj (.cons "name" (.str n) (.cons "children" (.arr (toJsonArr cs))
      (.cons "desc" (optToJson d) (.cons "entity" (optToJson e) .nil))))

def toJsonArr : List TreeItem → JsonList
  | [] => .nil
  | t :: ts => .cons t.toJson (toJsonArr ts)

end

/-- Final step of the derived `Deserialize`: every field must have been
seen. -/
def buildItem (nameSlot : Option String) (childrenSlot : Option (List TreeItem))
    (descSlot : Option (Option String)) (entitySlot : Option (Option String)) :
    Option TreeItem :=
  match nameSlot with
  | none => none
  | some n =>
    match childrenSlot with
    | none => none
    | some cs =>
      match descSlot with
      | none => none
      | some d =>
        match entitySlot with
        | none => none
        | some e => some (.node n cs d e)

mutual

/-- Derived `Deserialize` for `TreeItem`: a JSON object parsed field by
field. -/
def fromJson : Json → Option TreeItem
  | .obj fields => parseFields fields none none none none
  | _ => none

/-- Field visitor of the derived `Deserialize`: one slot per known field,
duplicates and ill-typed values rejected, unknown fields skipped. -/
def parseFields : JsonFields → Option String → Option (List TreeItem) →
    Option (Option String) → Option (Option String) → Option TreeItem
  | .nil, nameSlot, childrenSlot, descSlot, entitySlot =>
    buildItem nameSlot childrenSlot descSlot entitySlot
  | .cons k v rest, nameSlot, childrenSlot, descSlot, entitySlot =>
    if k = "name" then
      match v with
      | .str s =>
        match nameSlot with
        | none => parseFields rest (some s) childrenSlot descSlot entitySlot
        | some _ => none
      | _ => none
    else if k = "children" then
      match v with
      | .arr xs =>
        match childrenSlot with
        | none =>
          match fromJsonArr xs with
          | some cs => parseFields rest nameSlot (some cs) descSlot entitySlot
          | none => none
        | some _ => none
      | _ => none
    else if k = "desc" then
      match optFromJson v with
      | some d =>
        match descSlot with
        | none => parseFields rest nameSlot childrenSlot (some d) entitySlot
        | some _ => none
      | none => none
    else if k = "entity" then
      match optFromJson v with
      | some e =>
        match entitySlot with
        | none => parseFields rest nameSlot childrenSlot descSlot (some e)
        | some _ => none
      | none => none
    else parseFields rest nameSlot childrenSlot descSlot entitySlot

def fromJsonArr : JsonList → Option (List TreeItem)
  | .nil => some []
  | .cons x xs =>
    match fromJson x, fromJsonArr xs with
    | some t, some ts => some (t :: ts)
    | _, _ => none

end

/-- `TreeModel::to_file`: the root is serialized as one whole document and
written with a single `write_all`; the written content is this single
document value, a function of the entire node graph. -/
def TreeModel.to_doc (m : TreeModel) : Json := TreeItem.toJson m.root

/-- `TreeItem::from_file`/`from_string` followed by `TreeModel::new`: parse
a document into a root item, current position at the root. -/
def TreeModel.from_doc (j : Json) : Option TreeModel :=
  (fromJson j).map TreeModel.new

/-! ## Concrete material from the specification scenarios -/

/-- A filesystem on which no path exists. -/
def fs0 : FS := ⟨[], [], fun _ => none, "/cw"⟩

/-- Scenario A (§8): `item.txt` inside `dir-A`, next to the empty `dir-B`,
under the root `t`. -/
def itemTxt : TreeItem := .node "item.txt" [] (some "x") (some "./a")

def dirA : TreeItem := .node "dir-A" [itemTxt] none none

def dirB : TreeItem := .node "dir-B" [] none none

def treeA : TreeItem := .node "t" [dirA, dirB] none none

/-- Scenario A model, current position at the root. -/
def mA : TreeModel := ⟨treeA, []⟩

/-- Scenario D (§8): two siblings named `NAME`, an entity-bearing file and
a directory, in this insertion order. -/
def nameFile : TreeItem := .node "NAME" [] none (some "./f")

def nameDir : TreeItem := .node "NAME" [.node "item.txt" [] none none] none none

def tD : TreeItem := .node "p" [nameFile, nameDir] none none

/-- A nested all-directory tree `r / a / a / b`, exercising `move_forward`
from a non-root position. -/
def treeNest : TreeItem :=
  .node "r" [.node "a" [.node "a" [.node "b" [] none none] none none] none none] none none

/-- An empty root for the `create_new_file` scenario. -/
def mT6 : TreeModel := ⟨.node "t" [] none none, []⟩

/-- The state after `create_new_file("new.txt", "vf/new.txt")` on `mT6`. -/
def m6 : TreeModel :=
  ⟨.node "t" [.node "new.txt" [] none (some "vf/new.txt")] none none, []⟩

def fs6 : FS := fs0.createFile "vf/new.txt"

/-- A filesystem on which the candidate backing path already exists. -/
def fsBusy : FS := ⟨["vf/new.txt"], [], fun _ => none, "/cw"⟩

/-- A filesystem on which `/f` exists as a regular file. -/
def fsF : FS := ⟨["/f"], [], fun _ => none, "/cw"⟩

/-- A node that has a child and also an entity whose path resolves. -/
def nodeChildEntity : TreeItem := .node "x" [.node "c" [] none none] none (some "/f")

/-- A parent whose only child is literally named `2`. -/
def t7 : TreeItem := .node "p" [.node "2" [] none none] none none

/-- A parent whose only child is literally named `7`. -/
def t10 : TreeItem := .node "p" [.node "7" [] none none] none none

/-! ## Claim-side definition for C5 (the claim's own words) -/

/-- The walking phase exactly as claim C5 words it: left to right, `..` pops
the last accumulated segment (a no-op when the accumulation is empty),
anything else is pushed. -/
def specWalk : List String → List String → List String
  | acc, [] => acc
  | acc, s :: rest =>
    if s = ".." then specWalk acc.dropLast rest else specWalk (acc ++ [s]) rest

/-- Claim C5's described algorithm for `resolve_virtual_path`: start from
the empty list when the string begins with `~`, else from the current
path's segments; replace every `\` by `/`, split on `/`, drop segments that
are empty, `.`, or `~`; then walk with `specWalk`. -/
def resolveSpec (m : TreeModel) (p : String) : List String :=
  specWalk (if startsWithChar '~' p then [] else m.path)
    ((splitPathString p).filter fun s => decide ¬(s = "" ∨ s = "." ∨ s = "~"))

theorem optFromJson_optToJson (d : Option String) :
    optFromJson (optToJson d) = some d := by
  cases d <;> rfl

/-- Parsing the serialized field list of one node reduces to parsing the
serialized children array. -/
theorem fromJson_obj_fields (n : String) (xs : JsonList) (d e : Option String) :
    fromJson (.obj (.cons "name" (.str n) (.cons "children" (.arr xs)
      (.cons "desc" (optToJson d) (.cons "entity" (optToJson e) .nil))))) =
    match fromJsonArr xs with
    | some cs => some (.node n cs d e)
    | none => none := by
  cases h : fromJsonArr xs with
  | none =>
    cases d <;> cases e <;>
      simp [fromJson, parseFields, buildItem, optFromJson, optToJson, h]
  | some cs =>
    cases d <;> cases e <;>
      simp [fromJson, parseFields, buildItem, optFromJson, optToJson, h]

mutual

theorem fromJson_toJson : ∀ t : TreeItem, fromJson (TreeItem.toJson t) = some t
  | .node n cs d e => by
    rw [TreeItem.toJson, fromJson_obj_fields, fromJsonArr_toJsonArr cs]

theorem fromJsonArr_toJsonArr : ∀ ts : List TreeItem,
    fromJsonArr (toJsonArr ts) = some ts
  | [] => by rw [toJsonArr, fromJsonArr]
  | t :: ts => by
    rw [toJsonArr, fromJsonArr, fromJson_toJson t, fromJsonArr_toJsonArr ts]

end


/-! ## Helper lemmas -/

theorem specWalk_foldl (xs : List String) : ∀ acc : List String,
    specWalk acc xs =
      xs.foldl (fun cur p => if p == ".." then cur.dropLast else cur ++ [p]) acc := by
  induction xs with
  | nil => intro acc; rfl
  | cons s rest ih =>
    intro acc
    by_cases h : s = ".."
    · simp [specWalk, h, ih]
    · simp [specWalk, h, ih]

theorem dropFilter_eq (s : String) :
    (s != "" && s != "." && s != "~") = decide ¬(s = "" ∨ s = "." ∨ s = "~") := by
  by_cases h1 : s = "" <;> by_cases h2 : s = "." <;> by_cases h3 : s = "~" <;>
    simp [h1, h2, h3]

theorem getChildFirst_find (nm : String) : ∀ cs : List TreeItem,
    TreeItem.getChildFirst nm cs =
      match cs.find? (fun c => c.name == nm) with
      | some c => Res.ok c
      | none => Res.err (.noSuchFile nm) := by
  intro cs
  induction cs with
  | nil => rfl
  | cons c rest ih =>
    by_cases h : c.name = nm
    · have hb : (c.name == nm) = true := by simp [h]
      simp [TreeItem.getChildFirst, List.find?, hb]
    · have hb : (c.name == nm) = false := by simp [h]
      simp [TreeItem.getChildFirst, List.find?, hb, ih]

theorem getChildNth_spec (nm : String) (nth : Int) : ∀ (cs : List TreeItem) (count : Int),
    0 ≤ count → count ≤ nth →
    TreeItem.getChildNth nm nth cs count =
      (match (cs.filter fun c => c.name == nm)[(nth - count).toNat]? with
       | some c => Res.ok c
       | none =>
         if 0 < count + (cs.filter fun c => c.name == nm).length then
           Res.err (.ambiguous (count + (cs.filter fun c => c.name == nm).length) nm)
         else Res.err (.noSuchFile nm)) := by
  intro cs
  induction cs with
  | nil =>
    intro count h0 h1
    simp only [TreeItem.getChildNth, List.filter_nil, List.getElem?_nil, List.length_nil,
      Nat.cast_zero, add_zero]
  | cons c rest ih =>
    intro count h0 h1
    by_cases h : c.name = nm
    · have hb : (c.name == nm) = true := by simp [h]
      by_cases h2 : count = nth
      · have hz : (nth - count).toNat = 0 := by omega
        simp [TreeItem.getChildNth, hb, h2, List.filter_cons, hz]
      · have hIdx : (nth - count).toNat = (nth - (count + 1)).toNat + 1 := by omega
        rw [TreeItem.getChildNth, if_pos hb, if_neg (by simp [h2])]
        rw [ih (count + 1) (by omega) (by omega)]
        simp only [List.filter_cons, hb, if_true]
        rw [hIdx]
        simp only [List.getElem?_cons_succ, List.length_cons]
        have harith : count + (((rest.filter fun c => c.name == nm).length + 1 : Nat) : Int) =
            count + 1 + ((rest.filter fun c => c.name == nm).length : Int) := by
          push_cast
          ring
        rw [harith]
    · have hb : (c.name == nm) = false := by simp [h]
      rw [TreeItem.getChildNth, if_neg (by simp [hb])]
      rw [ih count h0 h1]
      simp only [List.filter_cons, hb, Bool.false_eq_true, if_false]

/-- `get_child` in terms of `splitNthItem` and the loop characterizations. -/
theorem get_child_eq (t : TreeItem) (nm : String) :
    t.get_child nm =
      if (splitNthItem nm).2 < 0 then TreeItem.getChildFirst (splitNthItem nm).1 t.children
      else TreeItem.getChildNth (splitNthItem nm).1 (splitNthItem nm).2 t.children 0 := rfl

theorem lastHashSplit_none : ∀ r : List Char, '#' ∉ r → lastHashSplit r = none := by
  intro r
  induction r with
  | nil => intro _; rfl
  | cons c cs ih =>
    intro h
    have hc : c ≠ '#' := fun e => h (by simp [e])
    have hcs : '#' ∉ cs := fun m => h (List.mem_cons_of_mem _ m)
    simp [lastHashSplit, ih hcs, hc]

theorem lastHashSplit_append (l r : List Char) (h : '#' ∉ r) :
    lastHashSplit (l ++ '#' :: r) = some (l, r) := by
  induction l with
  | nil => simp [lastHashSplit, lastHashSplit_none r h]
  | cons c l ih => simp [lastHashSplit, ih]

/-! ## Claim theorems -/

/-- C1, counterexample: a node with a child and an entity whose path
currently resolves as a regular file is classified as a directory by the
code, while the claim says it is still a file. -/
theorem c1_counterexample :
    nodeChildEntity.entity = some "/f" ∧ fsF.isFile "/f" = true ∧
    nodeChildEntity.is_file fsF = false ∧ nodeChildEntity.is_dir fsF = true :=
  ⟨rfl, rfl, rfl, rfl⟩

/-- C1 (amended): is_file(n) is true exactly when n has no children, n's
entity is present and the referenced path currently exists as a regular
file on the (re-probed, never cached) filesystem; is_dir is its negation. -/
theorem c1_is_file_amended (fs : FS) (t : TreeItem) :
    (t.is_file fs = true ↔
      t.children = [] ∧ ∃ p, t.entity = some p ∧ fs.isFile p = true) ∧
    t.is_dir fs = !t.is_file fs := by
  constructor
  · cases t with
    | node n cs d e =>
      cases cs with
      | nil =>
        cases e with
        | none => simp [TreeItem.is_file, TreeItem.children, TreeItem.entity]
        | some p => simp [TreeItem.is_file, TreeItem.children, TreeItem.entity]
      | cons c rest => simp [TreeItem.is_file, TreeItem.children]
  · rfl

/-- C2, code_bug evidence: on Scenario A's tree at the root position, both
make_directory("dir-C") and remove_child("dir-B") end in a panic (the
pop().unwrap() of the empty solved vector inside dir_item_at_mut), not in a
returned error value — although the repo's own test test_mkdir expects
make_directory to succeed there. -/
theorem c2_root_operations_panic :
    TreeModel.make_directory fs0 mA "dir-C" = .panic ∧
    TreeModel.remove_child fs0 mA "dir-B" = .panic :=
  ⟨rfl, rfl⟩

/-- C3, code_bug evidence: on Scenario A's tree with the current position
at the root, ls_simple(None) panics (pop().unwrap() of the empty solved
vector inside dir_item_at) instead of returning "dir-A dir-B" as the claim
and the repo's own test test_ls_default state. -/
theorem c3_ls_simple_root_panics :
    treeA.children.map TreeItem.name = ["dir-A", "dir-B"] ∧
    TreeModel.ls_simple fs0 mA none = .panic :=
  ⟨rfl, rfl⟩

/-- C4: move_forward(name) validates the extended path via dir_item_at and
commits it to self.path exactly on success (an error leaves the model
unchanged, as only the ok branch carries the new path); on Scenario A,
move_forward("dir-A") succeeds and the subsequent move_forward("item.txt")
fails with the path still at dir-A. -/
theorem c4_move_forward_commit :
    (∀ (fs : FS) (m : TreeModel) (name : String),
      TreeModel.move_forward fs m name =
        match TreeModel.dir_item_at fs m (m.path ++ [name]) with
        | .ok _ => .ok ⟨m.root, m.path ++ [name]⟩
        | .err e => .err e
        | .panic => .panic) ∧
    TreeModel.move_forward fs0 mA "dir-A" = .ok ⟨treeA, ["dir-A"]⟩ ∧
    TreeModel.move_forward fs0 ⟨treeA, ["dir-A"]⟩ "item.txt" =
      .err (.noDirNamed "dir-A" "dir-A") :=
  ⟨fun _ _ _ => rfl, rfl, rfl⟩

/-- C5: resolve_virtual_path computes exactly the claim's described
algorithm (base from ~ or the current path; backslash normalization, split
on /, dropping empty, dot and tilde segments; then a left-to-right walk
where .. pops, clamped at empty, and anything else pushes); consequently,
from the root, "a/b/.." and "a" resolve to the same segment list. -/
theorem c5_resolve_virtual_path :
    (∀ (m : TreeModel) (p : String),
      m.resolve_virtual_path p = .ok (resolveSpec m p)) ∧
    (∀ root : TreeItem,
      TreeModel.resolve_virtual_path ⟨root, []⟩ "a/b/.." =
        TreeModel.resolve_virtual_path ⟨root, []⟩ "a") := by
  constructor
  · intro m p
    unfold TreeModel.resolve_virtual_path resolveSpec
    rw [specWalk_foldl]
    have hf : ((splitPathString p).filter fun s => s != "" && s != "." && s != "~") =
        ((splitPathString p).filter fun s => decide ¬(s = "" ∨ s = "." ∨ s = "~")) :=
      List.filter_congr fun s _ => dropFilter_eq s
    rw [hf]
  · intro root
    rfl

/-- C6, counterexample: on an empty root, the first
create_new_file("new.txt", "vf/new.txt") succeeds with the backing file
being the candidate itself (not stem-0.ext), and the second call with the
same virtual path and candidate fails with the already-exists error instead
of producing a second backing file and node. -/
theorem c6_counterexample :
    TreeModel.create_new_file fs0 mT6 "new.txt" "vf/new.txt" = .ok (m6, fs6) ∧
    m6.root.children = [TreeItem.newFile "new.txt" "vf/new.txt"] ∧
    TreeModel.create_new_file fs6 m6 "new.txt" "vf/new.txt" =
      .err (.alreadyExists "new.txt") :=
  ⟨rfl, rfl, rfl⟩

/-- C6 (amended): create_new_file fails with AlreadyExists whenever the
resolved virtual path is already present in the tree; otherwise it derives
a filesystem-unique backing name trying the candidate itself first and then
stem-0.ext, stem-1.ext, …, creates an empty file there and inserts an
entity-bearing node under the resolved parent; calling it twice with the
same virtual path gives one node and one backing file, the second call
failing with AlreadyExists. -/
theorem c6_create_new_file_amended :
    (∀ (fs : FS) (m : TreeModel) (path cand : String) (pv : List String),
      m.resolve_virtual_path path = .ok pv →
      m.check_path_exists pv = true →
      TreeModel.create_new_file fs m path cand = .err (.alreadyExists path)) ∧
    TreeModel.create_new_file fs0 mT6 "new.txt" "vf/new.txt" = .ok (m6, fs6) ∧
    (TreeModel.create_new_file fsBusy mT6 "new.txt" "vf/new.txt").map
        (fun pr => pr.1.root) =
      .ok (.node "t" [.node "new.txt" [] none (some "vf/new-0.txt")] none none) ∧
    TreeModel.create_new_file fs6 m6 "new.txt" "vf/new.txt" =
      .err (.alreadyExists "new.txt") := by
  refine ⟨?_, rfl, rfl, rfl⟩
  intro fs m path cand pv h1 h2
  simp [TreeModel.create_new_file, h1, h2, Res.bind]

/-- Witness for C6's amended theorem at a concrete input. -/
theorem c6_witness :
    TreeModel.create_new_file fs6 m6 "new.txt" "other.txt" =
      .err (.alreadyExists "new.txt") :=
  c6_create_new_file_amended.1 fs6 m6 "new.txt" "other.txt" ["new.txt"] rfl rfl

/-- C7, counterexample: a child literally named "2" exists (exact
membership via has), yet get_child("2") — a name with no '#' suffix — does
not return it: the all-integer name is consumed as a disambiguator with
empty base, so the call fails with NotFound for "". -/
theorem c7_counterexample :
    t7.has "2" = true ∧
    t7.get_child "2" = .err (.noSuchFile "") :=
  ⟨rfl, rfl⟩

/-- C7 (amended): writing (base, k) for split_nth_item(name): when k < 0
(no integer disambiguator), get_child returns the first child whose name
equals base and NotFound otherwise; when k ≥ 0 (which also happens for a
bare all-integer name, whose base is then empty), it returns the k-th
same-named sibling in insertion order, fails with Ambiguous(count) when
k is at least the number count > 0 of siblings named base, and NotFound
when count = 0; on Scenario D, get_child("NAME#1") selects the second
occurrence in insertion order. -/
theorem c7_get_child_amended :
    (∀ (t : TreeItem) (nm base : String) (k : Int),
      splitNthItem nm = (base, k) →
      (k < 0 → t.get_child nm =
        match t.children.find? (fun c => c.name == base) with
        | some c => Res.ok c
        | none => Res.err (.noSuchFile base)) ∧
      (0 ≤ k → t.get_child nm =
        match (t.children.filter fun c => c.name == base)[k.toNat]? with
        | some c => Res.ok c
        | none =>
          if 0 < (t.children.filter fun c => c.name == base).length then
            Res.err (.ambiguous ((t.children.filter fun c => c.name == base).length) base)
          else Res.err (.noSuchFile base))) ∧
    tD.get_child "NAME#1" = .ok nameDir := by
  constructor
  · intro t nm base k hsplit
    constructor
    · intro hk
      rw [get_child_eq, hsplit, if_pos hk]
      exact getChildFirst_find base t.children
    · intro hk
      rw [get_child_eq, hsplit, if_neg (not_lt.mpr hk)]
      rw [getChildNth_spec base k t.children 0 (le_refl 0) hk]
      simp only [sub_zero, zero_add, Nat.cast_pos]
  · rfl

/-- Witness for C7's amended theorem at a concrete input. -/
theorem c7_witness :
    tD.get_child "NAME" =
      (match tD.children.find? (fun c => c.name == "NAME") with
       | some c => Res.ok c
       | none => Res.err (.noSuchFile "NAME")) :=
  (c7_get_child_amended.1 tD "NAME" "NAME" (-1) rfl).1 (by decide)

/-- C8, code_bug evidence: on the nested all-directory tree r/a/a/b, from
position [a] the call move_forward("b") succeeds (dir_item_at re-prepends
the current path, validating the doubled vector [a, a, b]) and commits the
path [a, b], although root/a has no child b: current_item then fails, so
the committed current path points outside the tree; popping past the root
does clamp. -/
theorem c8_path_invariant_broken :
    TreeModel.move_forward fs0 ⟨treeNest, []⟩ "a" = .ok ⟨treeNest, ["a"]⟩ ∧
    TreeModel.move_forward fs0 ⟨treeNest, ["a"]⟩ "b" = .ok ⟨treeNest, ["a", "b"]⟩ ∧
    TreeModel.current_item fs0 ⟨treeNest, ["a", "b"]⟩ = .err (.noDirNamed "b" "a") ∧
    TreeModel.move_backward ⟨treeNest, ["a", "b"]⟩ 5 = .ok ⟨treeNest, []⟩ :=
  ⟨rfl, rfl, rfl, rfl⟩

/-- C9: serializing the tree to its whole-document JSON value and
deserializing it reproduces the identical node graph (names, descriptions,
entities and child order preserved), the reloaded model positioned at the
root. -/
theorem c9_serialization_roundtrip (m : TreeModel) :
    TreeModel.from_doc (TreeModel.to_doc m) = some (TreeModel.new m.root) := by
  unfold TreeModel.from_doc TreeModel.to_doc
  rw [fromJson_toJson m.root]
  rfl

/-- C10, counterexample: the name "7" contains no '#', yet it acts as a
disambiguator: split_nth_item("7") = ("", 7), so get_child("7") fails with
NotFound for the empty base even though a child literally named "7"
exists. -/
theorem c10_counterexample :
    ("7".data.contains '#') = false ∧
    splitNthItem "7" = ("", 7) ∧
    t10.has "7" = true ∧
    t10.get_child "7" = .err (.noSuchFile "") :=
  ⟨rfl, rfl, rfl, rfl⟩

/-- C10 (amended): the disambiguator is the text after the last '#', or
the whole name when no '#' occurs (the base is then empty); it acts exactly
when it parses as an i32: a non-integer trailing suffix makes the whole
name match literally, '#' characters included; "2#4#2" selects occurrence 2
of the literal base "2#4"; and a trailing negative integer such as in
"foo#-1" behaves exactly like "foo" with no disambiguator. -/
theorem c10_split_nth_amended :
    (∀ (l r : List Char) (n : Int), '#' ∉ r → parseI32 r = some n →
      splitNthItem (String.mk (l ++ '#' :: r)) = (String.mk l, n)) ∧
    (∀ l r : List Char, '#' ∉ r → parseI32 r = none →
      splitNthItem (String.mk (l ++ '#' :: r)) = (String.mk (l ++ '#' :: r), -1)) ∧
    (∀ (s : String) (n : Int), '#' ∉ s.data → parseI32 s.data = some n →
      splitNthItem s = ("", n)) ∧
    (∀ s : String, '#' ∉ s.data → parseI32 s.data = none →
      splitNthItem s = (s, -1)) ∧
    splitNthItem "2#4#2" = ("2#4", 2) ∧
    (∀ t : TreeItem, t.get_child "foo#-1" = t.get_child "foo") := by
  refine ⟨?_, ?_, ?_, ?_, rfl, fun _ => rfl⟩
  · intro l r n hr hp
    unfold splitNthItem
    rw [show (String.mk (l ++ '#' :: r)).data = l ++ '#' :: r from rfl]
    rw [lastHashSplit_append l r hr]
    show (match parseI32 r with
      | some n => (String.mk l, n)
      | none => (String.mk (l ++ '#' :: r), -1)) = _
    rw [hp]
  · intro l r hr hp
    unfold splitNthItem
    rw [show (String.mk (l ++ '#' :: r)).data = l ++ '#' :: r from rfl]
    rw [lastHashSplit_append l r hr]
    show (match parseI32 r with
      | some n => (String.mk l, n)
      | none => (String.mk (l ++ '#' :: r), -1)) = _
    rw [hp]
  · intro s n hs hp
    unfold splitNthItem
    rw [lastHashSplit_none s.data hs]
    show (match parseI32 s.data with
      | some n => ("", n)
      | none => (s, -1)) = _
    rw [hp]
  · intro s hs hp
    unfold splitNthItem
    rw [lastHashSplit_none s.data hs]
    show (match parseI32 s.data with
      | some n => ("", n)
      | none => (s, -1)) = _
    rw [hp]

/-- Witness for C10's amended theorem at a concrete input. -/
theorem c10_witness : splitNthItem "9" = ("", 9) :=
  c10_split_nth_amended.2.2.1 "9" 9 (by decide) (by decide)

end VTree
